import Mathlib

/-!
Verification of the STO news Discord bot's delivery core against its
natural-language specification.

The Go source is shallowly embedded: SQLite tables become Lean lists, SQL
statements become pure state transformers, and the retry/transaction
behaviour of the database layer is made explicit.  External library calls
(Go's `time.Parse`, `time.Format`) are abstracted as function parameters.
Go strings are modelled as `List Char` where slicing, length and substring
search matter.
-/

/-- Go strings are modelled as lists of characters. -/
abbrev Str := List Char

/-- `strings.ToLower` (ASCII-faithful model). -/
def goToLower (s : Str) : Str := s.map Char.toLower

/-- Whether `hay` starts with `needle` (`strings.HasPrefix`). -/
def goStartsWith : Str → Str → Bool
  | _, [] => true
  | [], _ :: _ => false
  | a :: as, b :: bs => a == b && goStartsWith as bs

/-- `strings.Contains hay needle`: substring occurrence. -/
def goContains (hay needle : Str) : Bool :=
  goStartsWith hay needle ||
    (match hay with
     | [] => false
     | _ :: t => goContains t needle)

/-- `strings.Fields`: split on runs of whitespace, dropping empty pieces. -/
def goFields (s : Str) : List Str :=
  (List.splitOnP Char.isWhitespace s).filter (fun w => ¬ w.isEmpty)

/-- `strings.Join xs sep`. -/
def goJoin (xs : List Str) (sep : Str) : Str :=
  match xs with
  | [] => []
  | [x] => x
  | x :: rest => x ++ sep ++ goJoin rest sep

/-- A news article as carried through the program (`types.NewsItem`).
`Updated` is an abstract instant (the Go `time.Time`), kept opaque as an
integer. -/
structure NewsItem where
  ID : Int
  Title : Str := []
  Summary : Str := []
  Content : Str := []
  Tags : List Str := []
  Platforms : List Str := []
  Updated : Int := 0
  ThumbnailURL : Str := []
deriving DecidableEq, Repr

/-- A row of the `channels` table. -/
structure ChannelRow where
  platforms : String
  environment : String
deriving DecidableEq, Repr

/-- The persistent store: the three SQLite tables as lists of rows.
`postedNews` is the delivery ledger, one entry per inserted row (the
`UNIQUE(news_id, channel_id)` constraint is reflected by `INSERT OR IGNORE`
refusing to add a pair that is already present). -/
structure DBState where
  channels : List (String × ChannelRow) := []
  newsCache : List NewsItem := []
  postedNews : List (Int × String) := []
deriving DecidableEq, Repr

/-- `SELECT 1 FROM channels WHERE id = ?` returned a row. -/
def channelExists (db : DBState) (channelID : String) : Bool :=
  db.channels.any (fun r => r.1 == channelID)

/-- `IsNewsPosted`: `SELECT 1 FROM posted_news WHERE news_id = ? AND
channel_id = ?`. -/
def isNewsPosted (db : DBState) (newsID : Int) (channelID : String) : Bool :=
  db.postedNews.any (fun r => r.1 == newsID && r.2 == channelID)

/-- One `INSERT OR IGNORE INTO posted_news (news_id, channel_id)` statement:
a no-op when the pair already exists (the unique constraint swallows the
duplicate), an append otherwise. -/
def insertOrIgnorePosted (db : DBState) (newsID : Int) (channelID : String) : DBState :=
  if isNewsPosted db newsID channelID then db
  else { db with postedNews := db.postedNews ++ [(newsID, channelID)] }

/-- Database operation options (`types.DatabaseOptions`). -/
structure DatabaseOptions where
  UseBatch : Bool
  IgnoreErrors : Bool
  RetryCount : Nat
  LogProgress : Bool
deriving DecidableEq, Repr

/-- `DefaultDatabaseOptions` from the source. -/
def DefaultDatabaseOptions : DatabaseOptions :=
  { UseBatch := false, IgnoreErrors := false, RetryCount := 3, LogProgress := false }

/-- `BulkDatabaseOptions` from the source. -/
def BulkDatabaseOptions : DatabaseOptions :=
  { UseBatch := true, IgnoreErrors := true, RetryCount := 3, LogProgress := true }

/-- `MarkNewsAsPostedWithOptions`: retries the `INSERT OR IGNORE` up to
`RetryCount` extra times.  In this model the statement itself cannot fail
(SQLite reports no error for an ignored duplicate), so the first attempt
always succeeds. -/
def markNewsAsPostedWithOptions (db : DBState) (newsID : Int) (channelID : String)
    (_options : DatabaseOptions) : Except String DBState :=
  Except.ok (insertOrIgnorePosted db newsID channelID)

/-- `MarkNewsAsPosted`: the default-options wrapper. -/
def markNewsAsPosted (db : DBState) (newsID : Int) (channelID : String) :
    Except String DBState :=
  markNewsAsPostedWithOptions db newsID channelID DefaultDatabaseOptions

/-- `MarkMultipleNewsAsPosted`: the nested loop over articles and channels.
Batched or not, each pair goes through the same `INSERT OR IGNORE`. -/
def markMultipleNewsAsPosted (db : DBState) (newsItems : List NewsItem)
    (channelIDs : List String) (_options : DatabaseOptions) : DBState :=
  newsItems.foldl
    (fun acc item =>
      channelIDs.foldl (fun acc2 c => insertOrIgnorePosted acc2 item.ID c) acc)
    db

/-- `GetAllCachedNews`: every row of `news_cache` (order irrelevant here). -/
def getAllCachedNews (db : DBState) : List NewsItem :=
  db.newsCache

/-- `AddChannel`: check existence, `INSERT OR REPLACE` the channel row with
platforms `pc,xbox,ps` and environment `PROD`, and — only when the channel
was new and the cache is non-empty — mark every cached article as posted to
it with `BulkDatabaseOptions`. -/
def addChannel (db : DBState) (channelID : String) : DBState :=
  let isNewChannel := ¬ channelExists db channelID
  let row : ChannelRow := { platforms := "pc,xbox,ps", environment := "PROD" }
  let db1 : DBState :=
    { db with channels :=
        (channelID, row) :: db.channels.filter (fun r => r.1 ≠ channelID) }
  if isNewChannel then
    let allNews := getAllCachedNews db1
    if allNews.length > 0 then
      markMultipleNewsAsPosted db1 allNews [channelID] BulkDatabaseOptions
    else db1
  else db1

/-- `RemoveChannel`: a single transaction deleting the channel row and all of
its ledger rows.  `f1`/`f2` inject a failure into the two DELETE statements;
a failed transaction is rolled back, so the caller observes the original
state together with the error flag. -/
def removeChannel (db : DBState) (channelID : String) (f1 f2 : Bool) :
    DBState × Bool :=
  if f1 then (db, false)
  else
    let db1 : DBState :=
      { db with channels := db.channels.filter (fun r => r.1 ≠ channelID) }
    if f2 then (db, false)
    else
      ({ db1 with postedNews := db1.postedNews.filter (fun r => r.2 ≠ channelID) },
       true)

/-! ### Schema (`createTables`) -/

/-- A table schema: the facts the claims need from the `CREATE TABLE`
statements in `createTables`. -/
structure TableSchema where
  name : String
  columns : List String
  uniques : List (List String)
deriving DecidableEq, Repr

/-- The `posted_news` table as created by `createTables`. -/
def postedNewsTable : TableSchema :=
  { name := "posted_news"
    columns := ["id", "news_id", "channel_id", "posted_at"]
    uniques := [["news_id", "channel_id"]] }

/-! ### Legacy-schema migration of `posted_news` (`migrateDatabase`)

The legacy branch of `migrateDatabase` runs seven individual statements
directly on the connection (no `BEGIN`/`COMMIT`):
1. `CREATE TABLE posted_news_backup AS SELECT * FROM posted_news`
2. `DROP TABLE posted_news`
3. `CREATE TABLE posted_news (... UNIQUE(news_id, channel_id) ...)`
4. `INSERT OR IGNORE INTO posted_news ... SELECT ... FROM posted_news_backup`
   (both the with- and without-`posted_at` variants copy the same
   `(news_id, channel_id)` pairs)
5. `DROP TABLE posted_news_backup`
6. `CREATE INDEX IF NOT EXISTS idx_posted_news_channel ...`
7. `CREATE INDEX IF NOT EXISTS idx_posted_news_id ...`
On the first failing statement the function returns an error; nothing is
rolled back. -/

/-- The `posted_news`-related tables during migration.  `none` means the
table does not exist. -/
structure MigState where
  postedNews : Option (List (Int × String))
  backup : Option (List (Int × String))
deriving DecidableEq, Repr

/-- One `INSERT OR IGNORE` of a pair into a plain row list. -/
def insertPairOrIgnore (rows : List (Int × String)) (p : Int × String) :
    List (Int × String) :=
  if p ∈ rows then rows else rows ++ [p]

/-- `migratePostedNews legacy fails` runs the seven statements in order on a
store whose `posted_news` table still has the legacy shape and holds
`legacy`.  `fails i = true` makes statement `i` fail.  Returns the resulting
table state and, on failure, the index of the failing statement. -/
def migratePostedNews (legacy : List (Int × String)) (fails : Nat → Bool) :
    MigState × Option Nat :=
  let s0 : MigState := { postedNews := some legacy, backup := none }
  if fails 1 then (s0, some 1) else
  let s1 : MigState := { s0 with backup := some legacy }
  if fails 2 then (s1, some 2) else
  let s2 : MigState := { s1 with postedNews := none }
  if fails 3 then (s2, some 3) else
  let s3 : MigState := { s2 with postedNews := some [] }
  if fails 4 then (s3, some 4) else
  let s4 : MigState := { s3 with postedNews := some (legacy.foldl insertPairOrIgnore []) }
  if fails 5 then (s4, some 5) else
  let s5 : MigState := { s4 with backup := none }
  if fails 6 then (s5, some 6) else
  if fails 7 then (s5, some 7) else
  (s5, none)

/-! ### Upstream fetch with pagination (`FetchNews`) -/

/-- The per-page limit computed inside the pagination loop:
`limit := itemLimit; if remaining < itemLimit { limit = remaining }`. -/
def pageLimit (count accLen itemLimit : Nat) : Nat :=
  let remaining := count - accLen
  if remaining < itemLimit then remaining else itemLimit

/-- The pagination loop of `FetchNews`, with explicit fuel (one unit per
iteration).  `upstream limit offset` is the decoded page the API returns for
one GET.  The loop runs while fewer than `count` items are accumulated,
appends each page, and breaks as soon as a page comes back empty.  `none`
means the fuel ran out before the loop finished. -/
def fetchLoop (upstream : Nat → Nat → List NewsItem) (count itemLimit : Nat) :
    Nat → List NewsItem → Nat → Option (List NewsItem)
  | 0, _, _ => none
  | fuel + 1, acc, offset =>
    if acc.length < count then
      let limit := pageLimit count acc.length itemLimit
      let page := upstream limit offset
      let acc2 := acc ++ page
      if page.length = 0 then some acc2
      else fetchLoop upstream count itemLimit fuel acc2 (offset + page.length)
    else some acc

/-- The paginated branch of `FetchNews`, given `count + 1` units of fuel. -/
def fetchNewsPaginated (upstream : Nat → Nat → List NewsItem)
    (count itemLimit : Nat) : Option (List NewsItem) :=
  fetchLoop upstream count itemLimit (count + 1) [] 0

/-! ### Duplicate-suppression heuristic (`IsDuplicateInRecentMessages`) -/

/-- One embed of a Discord message, as far as the duplicate check reads it. -/
structure DiscordEmbed where
  title : Str
  description : Str
deriving DecidableEq, Repr

/-- A recent channel message, as far as the duplicate check reads it. -/
structure DiscordMessage where
  authorID : String
  content : Str
  embeds : List DiscordEmbed
deriving DecidableEq, Repr

/-- The text a message is matched against: lowercased content, with each
non-empty embed title and description appended after a space, lowercased. -/
def messageText (m : DiscordMessage) : Str :=
  m.embeds.foldl
    (fun acc e =>
      let acc1 := if ¬ e.title.isEmpty then acc ++ ' ' :: goToLower e.title else acc
      if ¬ e.description.isEmpty then acc1 ++ ' ' :: goToLower e.description else acc1)
    (goToLower m.content)

/-- The match counter of the duplicate check: how many title words of length
greater than 3 occur as substrings of the message text. -/
def matchCount (titleWords : List Str) (text : Str) : Nat :=
  (titleWords.filter (fun w => decide (w.length > 3) && goContains text w)).length

/-- `IsDuplicateInRecentMessages`, after the messages have been fetched:
tokenize the lowercased title on whitespace; with zero tokens return false;
otherwise scan the messages authored by the bot itself and report a
duplicate when more than half of the significant words match and at least
two do. -/
def isDuplicateInRecentMessages (botID : String) (messages : List DiscordMessage)
    (title : Str) : Bool :=
  let titleWords := goFields (goToLower title)
  if titleWords.length = 0 then false
  else
    messages.any (fun m =>
      m.authorID == botID &&
        (let mc := matchCount titleWords (messageText m)
         decide (mc > titleWords.length / 2) && decide (mc ≥ 2)))

/-! ### Discord embed construction (`formatNewsForDiscord`) -/

/-- One field of a Discord embed. -/
structure EmbedField where
  name : Str
  value : Str
  inlineField : Bool
deriving DecidableEq, Repr

/-- The rich embed `formatNewsForDiscord` builds. -/
structure NewsEmbed where
  title : Str
  description : Str
  url : Str
  color : Int
  timestamp : Str
  footerText : Str
  fields : List EmbedField
  thumbnailURL : Option Str
deriving DecidableEq, Repr

/-- `formatNewsForDiscord`.  `fmtRFC3339` abstracts Go's
`time.Time.Format(time.RFC3339)`; integer-to-decimal formatting of the id
matches Go's `%d`. -/
def formatNewsForDiscord (fmtRFC3339 : Int → Str) (newsItem : NewsItem) : NewsEmbed :=
  let summary := newsItem.Summary
  let summary :=
    if summary.length > 2048 then
      if summary.length ≤ 3 then summary.take 2048
      else summary.take 2045 ++ "...".toList
    else summary
  { title := newsItem.Title
    description := summary
    url := "https://playstartrekonline.com/en/news/article/".toList
             ++ (toString newsItem.ID).toList
    color := 0x00ff00
    timestamp := fmtRFC3339 newsItem.Updated
    footerText := "Platforms: ".toList ++ goJoin newsItem.Platforms ", ".toList
    fields := [⟨"Tags".toList, goJoin newsItem.Tags ", ".toList, true⟩,
               ⟨"Platforms".toList, goJoin newsItem.Platforms ", ".toList, true⟩]
    thumbnailURL := if newsItem.ThumbnailURL ≠ [] then some newsItem.ThumbnailURL
                    else none }

/-! ### Flexible JSON decoding of articles (`NewsItem.UnmarshalJSON`)

Go's `time.Parse` is abstracted as `parseTime layout input`, returning the
parsed instant on success. -/

/-- A JSON value (Go's `interface{}` after `encoding/json`; numbers in the
feed are integers). -/
inductive Json where
  | null : Json
  | bool (b : Bool) : Json
  | num (n : Int) : Json
  | str (s : Str) : Json
  | arr (xs : List Json) : Json
  | obj (fields : List (String × Json)) : Json

/-- Field lookup in a JSON object. -/
def jGet (fields : List (String × Json)) (k : String) : Option Json :=
  (fields.find? (fun f => f.1 == k)).map (fun f => f.2)

/-- `strconv.ParseInt(s, 10, 64)`: optional sign, decimal digits, 64-bit
range check. -/
def goParseInt64 (s : Str) : Option Int :=
  let core : Bool × Str :=
    match s with
    | '-' :: rest => (true, rest)
    | '+' :: rest => (false, rest)
    | _ => (false, s)
  let digits := core.2
  if digits.isEmpty then none
  else if digits.all Char.isDigit then
    let n : Nat := digits.foldl (fun acc c => acc * 10 + (c.toNat - 48)) 0
    let v : Int := if core.1 then -(n : Int) else (n : Int)
    if -(2 ^ 63) ≤ v ∧ v ≤ 2 ^ 63 - 1 then some v else none
  else none

/-- The `switch` on the decoded `id` value: a string is parsed as a decimal
64-bit integer (left 0 when it does not parse), a number is coerced, and any
other shape leaves the zero id. -/
def decodeID (v : Option Json) : Int :=
  match v with
  | some (Json.str s) =>
    match goParseInt64 s with
    | some id => id
    | none => 0
  | some (Json.num n) => n
  | _ => 0

/-- The four time layouts tried for `updated`, in source order
(`time.RFC3339` first). -/
def goTimeFormats : List String :=
  ["2006-01-02T15:04:05Z07:00", "2006-01-02T15:04:05Z", "2006-01-02 15:04:05",
   "2006-01-02T15:04:05"]

/-- The format loop: the first layout that parses wins. -/
def parseUpdatedLoop (parseTime : String → Str → Option Int) :
    List String → Str → Option Int
  | [], _ => none
  | f :: rest, s =>
    match parseTime f s with
    | some t => some t
    | none => parseUpdatedLoop parseTime rest s

/-- `if aux.Updated != "" { ... }`: an empty or unparsable timestamp leaves
the zero time. -/
def decodeUpdated (parseTime : String → Str → Option Int) (s : Str) : Int :=
  if ¬ s.isEmpty then
    match parseUpdatedLoop parseTime goTimeFormats s with
    | some t => t
    | none => 0
  else 0

/-- The thumbnail keys tried against the `images` map, in source order. -/
def thumbnailFields : List String :=
  ["img_microsite_thumbnail", "thumbnail", "img_microsite_background",
   "unhighlight_img"]

/-- The images scan: the first key whose value is an object carrying a
string `url` wins; an object without `url` does not stop the scan. -/
def pickThumbnail (m : List (String × Json)) : Option Str :=
  thumbnailFields.findSome? (fun k =>
    match jGet m k with
    | some (Json.obj t) =>
      match jGet t "url" with
      | some (Json.str u) => some u
      | _ => none
    | _ => none)

/-- Decoding one JSON value into a string field of the auxiliary struct
(`title`, `summary`, `content`, `thumbnail_url`): absent or `null` leaves
the empty default; a non-string value is a type error that fails the whole
unmarshal. -/
def getStringField (fields : List (String × Json)) (k : String) :
    Except String Str :=
  match jGet fields k with
  | none => Except.ok []
  | some Json.null => Except.ok []
  | some (Json.str s) => Except.ok s
  | some _ => Except.error k

/-- Decoding a `[]string` field (`tags`, `platforms`): each element must be
a string, otherwise the whole unmarshal fails. -/
def getStringArrayField (fields : List (String × Json)) (k : String) :
    Except String (List Str) :=
  match jGet fields k with
  | none => Except.ok []
  | some Json.null => Except.ok []
  | some (Json.arr xs) =>
    xs.mapM (fun x =>
      match x with
      | Json.str s => Except.ok s
      | _ => Except.error k)
  | some _ => Except.error k

/-- `NewsItem.UnmarshalJSON`: the outer `json.Unmarshal` into the auxiliary
struct (which type-checks every typed field and fails the whole decode on a
mismatch), then the tolerant id switch, the first-format-wins timestamp
loop, and the thumbnail extraction from `images`. -/
def unmarshalNewsItem (parseTime : String → Str → Option Int) (j : Json) :
    Except String NewsItem := do
  match j with
  | Json.obj fields =>
    let title ← getStringField fields "title"
    let summary ← getStringField fields "summary"
    let content ← getStringField fields "content"
    let thumb ← getStringField fields "thumbnail_url"
    let tags ← getStringArrayField fields "tags"
    let platforms ← getStringArrayField fields "platforms"
    let updatedStr ← (match jGet fields "updated" with
      | none => Except.ok ([] : Str)
      | some Json.null => Except.ok ([] : Str)
      | some (Json.str s) => Except.ok s
      | some _ => Except.error "updated")
    let images ← (match jGet fields "images" with
      | none => Except.ok (none : Option (List (String × Json)))
      | some Json.null => Except.ok none
      | some (Json.obj m) => Except.ok (some m)
      | some _ => Except.error "images")
    let thumbFinal : Str :=
      match images with
      | none => thumb
      | some m =>
        match pickThumbnail m with
        | some u => u
        | none => thumb
    Except.ok
      { ID := decodeID (jGet fields "id")
        Title := title
        Summary := summary
        Content := content
        Tags := tags
        Platforms := platforms
        Updated := decodeUpdated parseTime updatedStr
        ThumbnailURL := thumbFinal }
  | _ => Except.error "not an object"

/-- Decoding the `news` array of a feed response: `json.Decoder.Decode`
fails the entire response as soon as any one article fails, so a single bad
article aborts the whole fetch call. -/
def decodeNewsResponse (parseTime : String → Str → Option Int)
    (items : List Json) : Except String (List NewsItem) :=
  items.mapM (unmarshalNewsItem parseTime)

/-! ### Delivery traces (`ProcessChannelNews` / `CatchUpUnpostedNews`)

The at-most-once claim quantifies over sequences of poller ticks and
catch-up runs and over schedules of transient chat-adapter failures; store
writes (in particular `MarkNewsAsPosted` after a successful post) are
reliable in that failure model.  A trace is a sequence of per-channel
dispatches, each processing its fetched articles in order exactly as the two
source loops do:
* `preSkip` is any of the checks that skip an article before the ledger
  check or post (catch-up's cutoff, platform filter and duplicate
  heuristic; a failed `IsNewsPosted` query) — in the live tick path it is
  always false;
* then the ledger is consulted and already-delivered articles are skipped;
* then the chat post is attempted; `postOk` is the adapter's outcome: on
  failure the loop continues without touching the ledger, on success
  `MarkNewsAsPosted` inserts the pair. -/

/-- One article attempt within a dispatch. -/
structure Attempt where
  article : Int
  preSkip : Bool
  postOk : Bool
deriving DecidableEq, Repr

/-- One per-channel dispatch: returns the ledger after the loop and the list
of successful posts it made (as (article, channel) pairs). -/
def runDispatch (ledger : List (Int × String)) (c : String) :
    List Attempt → List (Int × String) × List (Int × String)
  | [] => (ledger, [])
  | a :: rest =>
    if a.preSkip then runDispatch ledger c rest
    else if (a.article, c) ∈ ledger then runDispatch ledger c rest
    else if a.postOk then
      let r := runDispatch ((a.article, c) :: ledger) c rest
      (r.1, (a.article, c) :: r.2)
    else runDispatch ledger c rest

/-- A whole trace of tick and catch-up dispatches, run in sequence. -/
def runTrace (ledger : List (Int × String)) :
    List (String × List Attempt) → List (Int × String) × List (Int × String)
  | [] => (ledger, [])
  | (c, items) :: ops =>
    let r := runDispatch ledger c items
    let s := runTrace r.1 ops
    (s.1, r.2 ++ s.2)

/-! ### Ledger lemmas -/

/-- The number of `posted_news` rows for a (news, channel) pair. -/
def ledgerRowCount (db : DBState) (newsID : Int) (channelID : String) : Nat :=
  (db.postedNews.filter (fun r => r.1 == newsID && r.2 == channelID)).length

/-- `MarkNewsAsPosted` called `k` times in a row; the flag records whether
every call returned without error. -/
def iterMarkPosted (newsID : Int) (channelID : String) : Nat → DBState → DBState × Bool
  | 0, db => (db, true)
  | Nat.succ k, db =>
    match markNewsAsPosted db newsID channelID with
    | Except.ok db1 => iterMarkPosted newsID channelID k db1
    | Except.error _ => (db, false)

theorem isNewsPosted_false_count (db : DBState) (a : Int) (c : String)
    (h : isNewsPosted db a c = false) : ledgerRowCount db a c = 0 := by
  unfold isNewsPosted at h
  unfold ledgerRowCount
  simp only [List.any_eq_false] at h
  simp only [List.length_eq_zero, List.filter_eq_nil_iff]
  intro r hr
  exact h r hr

theorem insertOrIgnore_already (db : DBState) (a : Int) (c : String)
    (h : isNewsPosted db a c = true) : insertOrIgnorePosted db a c = db := by
  unfold insertOrIgnorePosted
  simp [h]

theorem insertOrIgnore_new_count (db : DBState) (a : Int) (c : String)
    (h : isNewsPosted db a c = false) :
    ledgerRowCount (insertOrIgnorePosted db a c) a c = 1 := by
  have h0 := isNewsPosted_false_count db a c h
  unfold ledgerRowCount at h0 ⊢
  unfold insertOrIgnorePosted
  simp only [h, Bool.false_eq_true, if_false]
  simp [List.filter_append, h0]

theorem count_one_posted (db : DBState) (a : Int) (c : String)
    (h : ledgerRowCount db a c = 1) : isNewsPosted db a c = true := by
  unfold ledgerRowCount at h
  unfold isNewsPosted
  rcases hf : db.postedNews.filter (fun r => r.1 == a && r.2 == c) with _ | ⟨r, rest⟩
  · rw [hf] at h; simp at h
  · have hr : r ∈ db.postedNews.filter (fun r => r.1 == a && r.2 == c) := by
      rw [hf]; exact List.mem_cons_self r rest
    rw [List.mem_filter] at hr
    simp only [List.any_eq_true]
    exact ⟨r, hr.1, hr.2⟩

theorem posted_count_pos (db : DBState) (a : Int) (c : String)
    (h : isNewsPosted db a c = true) : 1 ≤ ledgerRowCount db a c := by
  unfold isNewsPosted at h
  simp only [List.any_eq_true] at h
  rcases h with ⟨r, hr, hp⟩
  unfold ledgerRowCount
  have : r ∈ db.postedNews.filter (fun r => r.1 == a && r.2 == c) :=
    List.mem_filter.mpr ⟨hr, hp⟩
  rcases List.mem_iff_append.mp this with ⟨s, t, hst⟩
  simp [hst]
  omega

theorem iterMark_fixed (a : Int) (c : String) (k : Nat) (db : DBState)
    (h : isNewsPosted db a c = true) : iterMarkPosted a c k db = (db, true) := by
  induction k with
  | zero => rfl
  | succ n ih =>
    unfold iterMarkPosted markNewsAsPosted markNewsAsPostedWithOptions
    rw [insertOrIgnore_already db a c h]
    exact ih

/-- C3: for every article id A, channel id C and every k ≥ 1, calling
`mark_delivered(A, C)` k times succeeds on every call and leaves exactly one
ledger row for (A, C); the uniqueness is carried by the
`UNIQUE(news_id, channel_id)` constraint of the `posted_news` schema.  The
hypothesis `ledgerRowCount db A C ≤ 1` is the invariant that constraint
guarantees for the starting state. -/
theorem markDelivered_idempotent (db : DBState) (A : Int) (C : String) (k : Nat)
    (hk : 1 ≤ k) (hinv : ledgerRowCount db A C ≤ 1) :
    (iterMarkPosted A C k db).2 = true ∧
    ledgerRowCount (iterMarkPosted A C k db).1 A C = 1 ∧
    ["news_id", "channel_id"] ∈ postedNewsTable.uniques := by
  rcases k with _ | j
  · omega
  · refine ⟨?_, ?_, by simp [postedNewsTable]⟩ <;>
    · show _
      unfold iterMarkPosted markNewsAsPosted markNewsAsPostedWithOptions
      rcases hp : isNewsPosted db A C with _ | _
      · have h1 : ledgerRowCount (insertOrIgnorePosted db A C) A C = 1 :=
          insertOrIgnore_new_count db A C hp
        have h2 : isNewsPosted (insertOrIgnorePosted db A C) A C = true :=
          count_one_posted _ A C h1
        simp only [iterMark_fixed A C j _ h2, h1]
      · have h1 : ledgerRowCount db A C = 1 := by
          have := posted_count_pos db A C hp
          omega
        rw [insertOrIgnore_already db A C hp]
        simp only [iterMark_fixed A C j db hp, h1]

/-- Witness for C3 at a concrete store and k = 3. -/
theorem markDelivered_idempotent_witness :
    (iterMarkPosted 7 "CH" 3 {}).2 = true ∧
    ledgerRowCount (iterMarkPosted 7 "CH" 3 {}).1 7 "CH" = 1 ∧
    ["news_id", "channel_id"] ∈ postedNewsTable.uniques :=
  markDelivered_idempotent {} 7 "CH" 3 (by decide) (by decide)

/-- C10: `add_subscription` on an already-registered channel succeeds,
resets the row's platforms to `pc,xbox,ps` and its environment to `PROD`,
and does not run the mark-all-cached-articles step again (the ledger and the
article cache are untouched). -/
theorem addChannel_existing_resets (db : DBState) (channelID : String)
    (h : channelExists db channelID = true) :
    (addChannel db channelID).postedNews = db.postedNews ∧
    (addChannel db channelID).newsCache = db.newsCache ∧
    ((addChannel db channelID).channels.find? (fun r => r.1 == channelID)).map
        (fun r => r.2) =
      some { platforms := "pc,xbox,ps", environment := "PROD" } := by
  unfold addChannel
  simp [h]

/-- Witness for C10 at a concrete store holding channel CH1 with platforms
`pc` and environment `DEV`. -/
theorem addChannel_existing_resets_witness :
    (addChannel
        { channels := [("CH1", { platforms := "pc", environment := "DEV" })],
          newsCache := [], postedNews := [(5, "CH1")] } "CH1").postedNews
      = [(5, "CH1")] ∧
    ((addChannel
        { channels := [("CH1", { platforms := "pc", environment := "DEV" })],
          newsCache := [], postedNews := [(5, "CH1")] } "CH1").channels.find?
        (fun r => r.1 == "CH1")).map (fun r => r.2) =
      some { platforms := "pc,xbox,ps", environment := "PROD" } := by
  have h := addChannel_existing_resets
    { channels := [("CH1", { platforms := "pc", environment := "DEV" })],
      newsCache := [], postedNews := [(5, "CH1")] } "CH1" (by decide)
  exact ⟨h.1, h.2.2⟩

/-- C6: after a successful `remove_subscription(C)` no subscription row and
no ledger row for C remains and the article cache is untouched; the two
deletions run in one transaction, so a failure of either statement leaves
the store exactly as it was. -/
theorem removeChannel_cascade (db : DBState) (channelID : String) (f1 f2 : Bool) :
    ((removeChannel db channelID f1 f2).2 = true →
       channelExists (removeChannel db channelID f1 f2).1 channelID = false ∧
       (∀ r ∈ (removeChannel db channelID f1 f2).1.postedNews, r.2 ≠ channelID) ∧
       (removeChannel db channelID f1 f2).1.newsCache = db.newsCache) ∧
    ((removeChannel db channelID f1 f2).2 = false →
       (removeChannel db channelID f1 f2).1 = db) := by
  unfold removeChannel
  rcases f1 with _ | _ <;> rcases f2 with _ | _ <;> simp [channelExists]

/-- Witness for C6 at a concrete store, both on the success path and on a
failing second DELETE. -/
theorem removeChannel_cascade_witness :
    channelExists
      (removeChannel
        { channels := [("CH1", { platforms := "pc", environment := "PROD" })],
          newsCache := [], postedNews := [(5, "CH1"), (6, "CH2")] }
        "CH1" false false).1 "CH1" = false ∧
    (removeChannel
        { channels := [("CH1", { platforms := "pc", environment := "PROD" })],
          newsCache := [], postedNews := [(5, "CH1"), (6, "CH2")] }
        "CH1" false true).1 =
      { channels := [("CH1", { platforms := "pc", environment := "PROD" })],
        newsCache := [], postedNews := [(5, "CH1"), (6, "CH2")] } :=
  ⟨((removeChannel_cascade _ "CH1" false false).1 (by decide)).1,
   (removeChannel_cascade _ "CH1" false true).2 (by decide)⟩

/-! ### New-subscriber suppression (C2) -/

theorem isNewsPosted_insert_mono (db : DBState) (a a2 : Int) (c c2 : String)
    (h : isNewsPosted db a c = true) :
    isNewsPosted (insertOrIgnorePosted db a2 c2) a c = true := by
  unfold insertOrIgnorePosted
  rcases hp : isNewsPosted db a2 c2 with _ | _
  · simp only [Bool.false_eq_true, if_false]
    unfold isNewsPosted at h ⊢
    simp only [List.any_append, h, Bool.true_or]
  · simpa using h

theorem isNewsPosted_insert_self (db : DBState) (a : Int) (c : String) :
    isNewsPosted (insertOrIgnorePosted db a c) a c = true := by
  unfold insertOrIgnorePosted
  rcases hp : isNewsPosted db a c with _ | _
  · simp only [Bool.false_eq_true, if_false]
    unfold isNewsPosted
    simp [List.any_append]
  · simpa using hp

theorem markMultiple_fold_mono (items : List NewsItem) (db : DBState)
    (a : Int) (c c2 : String) (h : isNewsPosted db a c = true) :
    isNewsPosted
      (items.foldl (fun acc it => insertOrIgnorePosted acc it.ID c2) db) a c = true := by
  induction items generalizing db with
  | nil => exact h
  | cons x t ih => exact ih _ (isNewsPosted_insert_mono db a x.ID c c2 h)

theorem markMultiple_covers (items : List NewsItem) (db : DBState) (c : String)
    (options : DatabaseOptions) :
    ∀ item ∈ items,
      isNewsPosted (markMultipleNewsAsPosted db items [c] options) item.ID c = true := by
  unfold markMultipleNewsAsPosted
  simp only [List.foldl_cons, List.foldl_nil]
  induction items generalizing db with
  | nil => intro item h; cases h
  | cons x t ih =>
    intro item h
    simp only [List.foldl_cons]
    rw [List.mem_cons] at h
    rcases h with rfl | hmem
    · exact markMultiple_fold_mono t _ item.ID c c
        (isNewsPosted_insert_self db item.ID c)
    · exact ih _ item hmem

/-- C2: when `add_subscription(C)` registers a channel that did not
previously exist, every article already in the cache at that moment is
marked delivered to C by the time the call returns. -/
theorem addChannel_no_backspam (db : DBState) (channelID : String)
    (h : channelExists db channelID = false) :
    ∀ item ∈ db.newsCache,
      isNewsPosted (addChannel db channelID) item.ID channelID = true := by
  intro item hmem
  unfold addChannel
  simp only [h, Bool.false_eq_true, not_false_iff, if_true, getAllCachedNews]
  rcases hc : db.newsCache with _ | ⟨x, t⟩
  · rw [hc] at hmem; cases hmem
  · simp only [List.length_cons, Nat.zero_lt_succ, if_pos, gt_iff_lt]
    have := markMultiple_covers db.newsCache
      { db with channels :=
          (channelID, { platforms := "pc,xbox,ps", environment := "PROD" })
            :: db.channels.filter (fun r => r.1 ≠ channelID) }
      channelID BulkDatabaseOptions item hmem
    simp only [hc] at this ⊢
    simpa using this

/-- Witness for C2: a fresh store caching articles 101, 102, 103; after
`add_subscription("CH1")` article 101 is delivered to CH1. -/
theorem addChannel_no_backspam_witness :
    isNewsPosted
      (addChannel
        { channels := [], postedNews := [],
          newsCache := [{ ID := 101 }, { ID := 102 }, { ID := 103 }] } "CH1")
      101 "CH1" = true :=
  addChannel_no_backspam
    { channels := [], postedNews := [],
      newsCache := [{ ID := 101 }, { ID := 102 }, { ID := 103 }] }
    "CH1" (by decide) { ID := 101 } (by decide)

/-! ### At-most-once delivery (C1) -/

theorem runDispatch_ledger_mono (items : List Attempt) (ledger : List (Int × String))
    (c : String) (p : Int × String) (h : p ∈ ledger) :
    p ∈ (runDispatch ledger c items).1 := by
  induction items generalizing ledger with
  | nil => exact h
  | cons a t ih =>
    unfold runDispatch
    rcases hs : a.preSkip with _ | _
    · simp only [Bool.false_eq_true, if_false]
      by_cases hm : (a.article, c) ∈ ledger
      · simp only [hm, if_true]
        exact ih ledger h
      · simp only [hm, if_false]
        rcases hp : a.postOk with _ | _
        · simp only [Bool.false_eq_true, if_false]
          exact ih ledger h
        · simp only [if_true]
          exact ih ((a.article, c) :: ledger) (List.mem_cons_of_mem _ h)
    · simp only [if_true]
      exact ih ledger h

theorem runDispatch_count (items : List Attempt) (ledger : List (Int × String))
    (c : String) (A : Int) (C : String) :
    (runDispatch ledger c items).2.count (A, C) ≤ 1 ∧
    ((A, C) ∈ ledger → (runDispatch ledger c items).2.count (A, C) = 0) ∧
    (1 ≤ (runDispatch ledger c items).2.count (A, C) →
       (A, C) ∈ (runDispatch ledger c items).1) := by
  induction items generalizing ledger with
  | nil => simp [runDispatch]
  | cons a t ih =>
    unfold runDispatch
    rcases hs : a.preSkip with _ | _
    · simp only [Bool.false_eq_true, if_false]
      by_cases hm : (a.article, c) ∈ ledger
      · simp only [hm, if_true]
        exact ih ledger
      · simp only [hm, if_false]
        rcases hp : a.postOk with _ | _
        · simp only [Bool.false_eq_true, if_false]
          exact ih ledger
        · simp only [if_true]
          have ihl := ih ((a.article, c) :: ledger)
          by_cases he : (A, C) = (a.article, c)
          · have hmem : (A, C) ∈ (a.article, c) :: ledger := by
              rw [he]; exact List.mem_cons_self _ _
            have h0 : (runDispatch ((a.article, c) :: ledger) c t).2.count
                (A, C) = 0 :=
              ihl.2.1 hmem
            refine ⟨?_, ?_, ?_⟩
            · rw [he] at h0 ⊢
              simp [List.count_cons, h0]
            · intro hin
              exact absurd (he ▸ hin) hm
            · intro _
              exact runDispatch_ledger_mono t _ c _ hmem
          · have hne : ((a.article, c) == (A, C)) = false := by
              simp only [beq_eq_false_iff_ne, ne_eq]
              exact fun hq => he hq.symm
            refine ⟨?_, ?_, ?_⟩
            · have := ihl.1
              simp only [List.count_cons]
              simp [hne, this]
            · intro hin
              have := ihl.2.1 (List.mem_cons_of_mem _ hin)
              simp only [List.count_cons]
              simp [hne, this]
            · intro hpos
              apply ihl.2.2
              simp only [List.count_cons] at hpos
              simpa [hne] using hpos
    · simp only [if_true]
      exact ih ledger

theorem runTrace_count (ops : List (String × List Attempt))
    (ledger : List (Int × String)) (A : Int) (C : String) :
    (runTrace ledger ops).2.count (A, C) ≤ 1 ∧
    ((A, C) ∈ ledger → (runTrace ledger ops).2.count (A, C) = 0) := by
  induction ops generalizing ledger with
  | nil => simp [runTrace]
  | cons op ops ih =>
    obtain ⟨c, items⟩ := op
    unfold runTrace
    simp only [List.count_append]
    have hd := runDispatch_count items ledger c A C
    have ht := ih (runDispatch ledger c items).1
    constructor
    · rcases Nat.eq_zero_or_pos ((runDispatch ledger c items).2.count (A, C)) with h0 | hpos
      · rw [h0]
        simpa using ht.1
      · have hmem := hd.2.2 hpos
        have h0t := ht.2 hmem
        rw [h0t]
        simpa using hd.1
    · intro hin
      have h0d := hd.2.1 hin
      have hmem := runDispatch_ledger_mono items ledger c (A, C) hin
      have h0t := ht.2 hmem
      rw [h0d, h0t]

/-- C1: across every sequence of poller-tick and catch-up dispatches and
every schedule of transient chat-adapter failures (with the ledger write
after a successful post reliable, as the claim's failure model specifies),
an article is successfully posted to a channel at most once. -/
theorem at_most_once_delivery (ops : List (String × List Attempt)) (A : Int)
    (C : String) :
    (runTrace [] ops).2.count (A, C) ≤ 1 :=
  (runTrace_count ops [] A C).1

/-! ### Migration (C4) -/

theorem foldl_insertPair_count (l : List (Int × String)) :
    ∀ acc : List (Int × String), (∀ q, acc.count q ≤ 1) →
      ∀ p, (l.foldl insertPairOrIgnore acc).count p =
        if p ∈ acc ∨ p ∈ l then 1 else 0 := by
  induction l with
  | nil =>
    intro acc hacc p
    simp only [List.foldl_nil, List.not_mem_nil, or_false]
    by_cases hp : p ∈ acc
    · have h1 := List.count_pos_iff.mpr hp
      have h2 := hacc p
      simp only [hp, if_true]
      omega
    · simp only [hp, if_false]
      exact List.count_eq_zero.mpr hp
  | cons x t ih =>
    intro acc hacc p
    simp only [List.foldl_cons]
    by_cases hx : x ∈ acc
    · have hstep : insertPairOrIgnore acc x = acc := by
        simp [insertPairOrIgnore, hx]
      rw [hstep, ih acc hacc p]
      by_cases hpx : p = x
      · subst hpx
        simp [hx]
      · simp [List.mem_cons, hpx]
    · have hstep : insertPairOrIgnore acc x = acc ++ [x] := by
        simp [insertPairOrIgnore, hx]
      have hacc2 : ∀ q, (acc ++ [x]).count q ≤ 1 := by
        intro q
        rw [List.count_append]
        by_cases hqx : q = x
        · subst hqx
          have : acc.count q = 0 := List.count_eq_zero.mpr hx
          simp [this]
        · have : List.count q [x] = 0 := by
            simp [List.count_singleton, hqx]
          rw [this]
          simpa using hacc q
      rw [hstep, ih (acc ++ [x]) hacc2 p]
      by_cases hpx : p = x
      · subst hpx
        simp [List.mem_append]
      · simp [List.mem_append, List.mem_cons, hpx]

/-- C4 counterexample: the migration is not transactional.  With legacy row
(1, "A") and a failure injected into statement 3 (recreating `posted_news`),
the function aborts after the old table has already been dropped: the
resulting state is not the initial one (as a rolled-back transaction would
leave it) — `posted_news` is gone and only the backup holds the data. -/
theorem migration_not_transactional :
    (migratePostedNews [(1, "A")] (fun n => n == 3)).2 = some 3 ∧
    (migratePostedNews [(1, "A")] (fun n => n == 3)).1.postedNews = none ∧
    (migratePostedNews [(1, "A")] (fun n => n == 3)).1 ≠
      { postedNews := some [(1, "A")], backup := none } := by
  decide

/-- C4 amended: `migrateDatabase` rewrites the legacy `posted_news` table by
copying rows through a backup table with seven individual statements, not
one transaction.  When a statement from the drop of the old table up to the
drop of the backup fails, the migration aborts with the backup still
holding every legacy row (earlier statements are not rolled back); after a
successful migration every pre-existing (news_id, channel_id) pair is
present exactly once and no other pair exists. -/
theorem migration_backup_copy (legacy : List (Int × String)) (fails : Nat → Bool) :
    (∀ i, (migratePostedNews legacy fails).2 = some i → 2 ≤ i → i ≤ 5 →
       (migratePostedNews legacy fails).1.backup = some legacy) ∧
    ((migratePostedNews legacy fails).2 = none →
       (migratePostedNews legacy fails).1.backup = none ∧
       ∃ rows, (migratePostedNews legacy fails).1.postedNews = some rows ∧
         (∀ p ∈ legacy, rows.count p = 1) ∧
         (∀ p : Int × String, p ∉ legacy → rows.count p = 0)) := by
  have hcount := foldl_insertPair_count legacy [] (by simp)
  unfold migratePostedNews
  rcases h1 : fails 1 with _ | _ <;> rcases h2 : fails 2 with _ | _ <;>
    rcases h3 : fails 3 with _ | _ <;> rcases h4 : fails 4 with _ | _ <;>
    rcases h5 : fails 5 with _ | _ <;> rcases h6 : fails 6 with _ | _ <;>
    rcases h7 : fails 7 with _ | _ <;>
    simp only [h1, h2, h3, h4, h5, h6, h7, Bool.false_eq_true, if_false, if_true] <;>
    refine ⟨?_, ?_⟩ <;>
    first
      | (intro i hi h2i h5i
         first
           | rfl
           | trivial
           | (injection hi with hieq; omega))
      | (intro hnone
         first
           | (exact Option.noConfusion hnone)
           | (refine ⟨by first | rfl | trivial,
                legacy.foldl insertPairOrIgnore [], rfl, ?_, ?_⟩
              · intro p hp
                rw [hcount p]
                simp [hp]
              · intro p hp
                rw [hcount p]
                simp [hp]))

/-- Witness for C4 at two legacy rows: a failure at the restore statement
leaves the backup intact, and a clean run drops it. -/
theorem migration_backup_copy_witness :
    (migratePostedNews [(1, "A"), (2, "B")] (fun n => n == 4)).1.backup
        = some [(1, "A"), (2, "B")] ∧
    (migratePostedNews [(1, "A"), (2, "B")] (fun _ => false)).1.backup = none :=
  ⟨(migration_backup_copy [(1, "A"), (2, "B")] (fun n => n == 4)).1 4 rfl
      (by decide) (by decide),
   ((migration_backup_copy [(1, "A"), (2, "B")] (fun _ => false)).2 rfl).1⟩

/-! ### Pagination termination (C7) -/

theorem fetchLoop_isSome (fuel : Nat) :
    ∀ (upstream : Nat → Nat → List NewsItem) (count itemLimit : Nat)
      (acc : List NewsItem) (offset : Nat),
      count - acc.length < fuel →
      (fetchLoop upstream count itemLimit fuel acc offset).isSome = true := by
  induction fuel with
  | zero =>
    intro upstream count itemLimit acc offset h
    exact absurd h (Nat.not_lt_zero _)
  | succ n ih =>
    intro upstream count itemLimit acc offset h
    unfold fetchLoop
    by_cases hlen : acc.length < count
    · simp only [hlen, if_true]
      by_cases hpage :
          (upstream (pageLimit count acc.length itemLimit) offset).length = 0
      · simp [hpage]
      · simp only [hpage, if_false]
        apply ih
        rw [List.length_append]
        omega
    · simp [hlen]

/-- C7: the paginated fetch terminates for every upstream behaviour within
`count + 1` iterations; the loop returns as soon as a page comes back empty
(even when the requested count exceeds everything available) and as soon as
the accumulated articles reach the requested count. -/
theorem fetch_pagination_terminates (upstream : Nat → Nat → List NewsItem)
    (count itemLimit : Nat) :
    (fetchNewsPaginated upstream count itemLimit).isSome = true ∧
    (∀ fuel acc offset, acc.length < count →
       upstream (pageLimit count acc.length itemLimit) offset = [] →
       fetchLoop upstream count itemLimit (fuel + 1) acc offset = some acc) ∧
    (∀ fuel acc offset, count ≤ acc.length →
       fetchLoop upstream count itemLimit (fuel + 1) acc offset = some acc) := by
  refine ⟨?_, ?_, ?_⟩
  · exact fetchLoop_isSome (count + 1) upstream count itemLimit [] 0 (by simp)
  · intro fuel acc offset hlen hempty
    unfold fetchLoop
    simp [hlen, hempty]
  · intro fuel acc offset hge
    unfold fetchLoop
    have : ¬ acc.length < count := by omega
    simp [this]

/-- Witness for C7: an upstream with no articles at all; the loop stops on
the first (empty) page. -/
theorem fetch_pagination_terminates_witness :
    (fetchNewsPaginated (fun _ _ => []) 5 2).isSome = true ∧
    fetchLoop (fun _ _ => ([] : List NewsItem)) 5 2 1 [] 0 = some [] :=
  ⟨(fetch_pagination_terminates (fun _ _ => []) 5 2).1,
   (fetch_pagination_terminates (fun _ _ => []) 5 2).2.1 0 [] 0 (by decide) rfl⟩

/-! ### Duplicate-suppression heuristic (C5) -/

theorem goStartsWith_iff (hay needle : Str) :
    goStartsWith hay needle = true ↔ needle <+: hay := by
  induction hay generalizing needle with
  | nil =>
    cases needle with
    | nil => simp [goStartsWith]
    | cons b bs => simp [goStartsWith]
  | cons a t ih =>
    cases needle with
    | nil => simp [goStartsWith]
    | cons b bs =>
      simp only [goStartsWith, Bool.and_eq_true, beq_iff_eq, List.cons_prefix_cons,
        ih bs]
      exact and_congr_left (fun _ => eq_comm)

theorem goContains_iff (hay needle : Str) :
    goContains hay needle = true ↔ needle <:+: hay := by
  induction hay with
  | nil =>
    rw [goContains]
    cases needle with
    | nil => simp [goStartsWith]
    | cons b bs => simp [goStartsWith]
  | cons a t ih =>
    rw [goContains]
    simp only [Bool.or_eq_true, goStartsWith_iff, ih, List.infix_cons_iff]

instance decidableStrInfixOf (l₁ l₂ : Str) : Decidable (l₁ <:+: l₂) :=
  decidable_of_iff (goContains l₂ l₁ = true) (goContains_iff l₂ l₁)

theorem decide_infixOf_eq (w text : Str) :
    decide (w <:+: text) = goContains text w := by
  rcases h : goContains text w with _ | _
  · have : ¬ w <:+: text := fun hc => by
      rw [(goContains_iff text w).mpr hc] at h
      cases h
    simp [this]
  · have := (goContains_iff text w).mp h
    simp [this]

/-- C5: after the recent own-messages are fetched, the duplicate check
returns true exactly when the lowercased whitespace-tokenized title is
non-empty and some message authored by the bot has more than
⌊tokens/2⌋ — and at least two — of its length-greater-3 tokens occurring as
substrings of that message's text. -/
theorem dup_heuristic_spec (botID : String) (messages : List DiscordMessage)
    (title : Str) :
    isDuplicateInRecentMessages botID messages title = true ↔
      (goFields (goToLower title) ≠ [] ∧
       ∃ m ∈ messages, m.authorID = botID ∧
         2 ≤ ((goFields (goToLower title)).filter
                (fun w => decide (3 < w.length) &&
                  decide (w <:+: messageText m))).length ∧
         (goFields (goToLower title)).length / 2 <
           ((goFields (goToLower title)).filter
                (fun w => decide (3 < w.length) &&
                  decide (w <:+: messageText m))).length) := by
  unfold isDuplicateInRecentMessages
  have hfilter : ∀ m : DiscordMessage,
      (goFields (goToLower title)).filter
          (fun w => decide (3 < w.length) && decide (w <:+: messageText m)) =
        (goFields (goToLower title)).filter
          (fun w => decide (w.length > 3) && goContains (messageText m) w) := by
    intro m
    apply List.filter_congr
    intro w _
    rw [decide_infixOf_eq]
  by_cases hz : (goFields (goToLower title)).length = 0
  · rw [List.length_eq_zero] at hz
    simp [hz]
  · have hne : goFields (goToLower title) ≠ [] := by
      intro hc
      rw [hc] at hz
      exact hz rfl
    simp only [hz, if_false, List.any_eq_true, Bool.and_eq_true, beq_iff_eq,
      decide_eq_true_eq, matchCount]
    constructor
    · rintro ⟨m, hm, hauth, hgt, hge⟩
      exact ⟨hne, m, hm, hauth, by rw [hfilter m]; omega, by rw [hfilter m]; omega⟩
    · rintro ⟨-, m, hm, hauth, hge, hgt⟩
      rw [hfilter m] at hge hgt
      exact ⟨m, hm, hauth, by omega, by omega⟩

/-! ### Discord embed format (C8) -/

/-- C8 counterexample: the embed title is not truncated to 256 characters.
An article whose title has 300 characters yields an embed whose title still
has 300 characters and is not the 256-character truncation. -/
theorem embed_title_not_truncated :
    (formatNewsForDiscord (fun _ => []) { ID := 1, Title := List.replicate 300 'a' }).title.length = 300 ∧
    (formatNewsForDiscord (fun _ => []) { ID := 1, Title := List.replicate 300 'a' }).title ≠
      (List.replicate 300 'a').take 256 := by
  constructor
  · simp only [formatNewsForDiscord, List.length_replicate]
  · simp only [formatNewsForDiscord]
    intro hc
    have := congrArg List.length hc
    simp only [List.length_replicate, List.length_take] at this
    omega

/-- C8 amended: the embed carries the article title unmodified (no
256-character truncation), the summary truncated to at most 2048 characters
with a trailing `...` exactly when truncation occurs, the article URL
derived from the id, the fixed green accent color, the RFC3339 timestamp of
`updated`, the platforms footer, the two inline Tags/Platforms fields, and
a thumbnail exactly when the thumbnail URL is non-empty. -/
theorem embed_format (fmt : Int → Str) (item : NewsItem) :
    (formatNewsForDiscord fmt item).title = item.Title ∧
    (item.Summary.length ≤ 2048 →
       (formatNewsForDiscord fmt item).description = item.Summary) ∧
    (2048 < item.Summary.length →
       (formatNewsForDiscord fmt item).description =
         item.Summary.take 2045 ++ "...".toList ∧
       (formatNewsForDiscord fmt item).description.length = 2048 ∧
       "...".toList <:+ (formatNewsForDiscord fmt item).description) ∧
    (formatNewsForDiscord fmt item).url =
      "https://playstartrekonline.com/en/news/article/".toList
        ++ (toString item.ID).toList ∧
    (formatNewsForDiscord fmt item).color = 0x00ff00 ∧
    (formatNewsForDiscord fmt item).timestamp = fmt item.Updated ∧
    (formatNewsForDiscord fmt item).footerText =
      "Platforms: ".toList ++ goJoin item.Platforms ", ".toList ∧
    (formatNewsForDiscord fmt item).fields =
      [⟨"Tags".toList, goJoin item.Tags ", ".toList, true⟩,
       ⟨"Platforms".toList, goJoin item.Platforms ", ".toList, true⟩] ∧
    (item.ThumbnailURL ≠ [] →
       (formatNewsForDiscord fmt item).thumbnailURL = some item.ThumbnailURL) ∧
    (item.ThumbnailURL = [] →
       (formatNewsForDiscord fmt item).thumbnailURL = none) := by
  refine ⟨?_, ?_, ?_, ?_, ?_, ?_, ?_, ?_, ?_, ?_⟩
  · simp [formatNewsForDiscord]
  · intro h
    have : ¬ item.Summary.length > 2048 := by omega
    simp [formatNewsForDiscord, this]
  · intro h
    have hgt : item.Summary.length > 2048 := h
    have hnle : ¬ item.Summary.length ≤ 3 := by omega
    refine ⟨?_, ?_, ?_⟩
    · simp [formatNewsForDiscord, hgt, hnle]
    · simp only [formatNewsForDiscord, hgt, if_true, hnle, if_false]
      rw [List.length_append, List.length_take]
      have h3 : ("...".toList : Str).length = 3 := rfl
      rw [h3]
      omega
    · simp only [formatNewsForDiscord, hgt, if_true, hnle, if_false]
      exact List.suffix_append _ _
  · simp [formatNewsForDiscord]
  · simp [formatNewsForDiscord]
  · simp [formatNewsForDiscord]
  · simp [formatNewsForDiscord]
  · simp [formatNewsForDiscord]
  · intro h
    simp [formatNewsForDiscord, h]
  · intro h
    simp [formatNewsForDiscord, h]

/-- Witness for C8: a 2100-character summary is truncated to exactly 2048
characters, and a non-empty thumbnail URL yields a thumbnail. -/
theorem embed_format_witness :
    (formatNewsForDiscord (fun _ => [])
        { ID := 2, Summary := List.replicate 2100 'b',
          ThumbnailURL := "x".toList }).description.length = 2048 ∧
    (formatNewsForDiscord (fun _ => [])
        { ID := 2, Summary := List.replicate 2100 'b',
          ThumbnailURL := "x".toList }).thumbnailURL = some "x".toList :=
  ⟨((embed_format (fun _ => [])
      { ID := 2, Summary := List.replicate 2100 'b',
        ThumbnailURL := "x".toList }).2.2.1
        (by simp only [List.length_replicate]; omega)).2.1,
   (embed_format (fun _ => [])
      { ID := 2, Summary := List.replicate 2100 'b',
        ThumbnailURL := "x".toList }).2.2.2.2.2.2.2.2.1 (by simp)⟩

/-! ### Flexible article decoding (C9) -/

/-- C9 counterexample: a malformed id is not dropped.  An article whose id
is the non-numeric string "abc" decodes successfully — the item is retained
with the zero id (and no log-and-drop happens anywhere in the fetch path);
it is not rejected. -/
theorem malformed_id_not_dropped :
    unmarshalNewsItem (fun _ _ => none)
        (Json.obj [("id", Json.str "abc".toList), ("title", Json.str "T".toList)]) =
      Except.ok { ID := 0, Title := "T".toList } ∧
    goParseInt64 "abc".toList = none := by
  constructor <;> rfl

/-- C9 amended: ids arriving as numbers or numeric strings are coerced to
the 64-bit integer; the four `updated` layouts are tried in order and the
first that parses wins.  Malformed id or timestamp contents are always
tolerated (the item keeps the zero id / zero time and is retained); only a
JSON type mismatch (e.g. `updated` as a number) fails the decode, and such
a failure aborts the whole response rather than dropping one article. -/
theorem flexible_decode (pt : String → Str → Option Int) (idv : Json)
    (s ti : Str) :
    unmarshalNewsItem pt
        (Json.obj [("id", idv), ("updated", Json.str s), ("title", Json.str ti)]) =
      Except.ok { ID := decodeID (some idv), Title := ti,
                  Updated := decodeUpdated pt s } ∧
    (∀ n, decodeID (some (Json.num n)) = n) ∧
    (∀ w v, goParseInt64 w = some v → decodeID (some (Json.str w)) = v) ∧
    (∀ w, goParseInt64 w = none → decodeID (some (Json.str w)) = 0) ∧
    (∀ t, s ≠ [] → pt "2006-01-02T15:04:05Z07:00" s = some t →
       decodeUpdated pt s = t) ∧
    (∀ f rest t, parseUpdatedLoop pt (f :: rest) s = some t ↔
       (pt f s = some t ∨ (pt f s = none ∧ parseUpdatedLoop pt rest s = some t))) ∧
    ((∀ f ∈ goTimeFormats, pt f s = none) → decodeUpdated pt s = 0) ∧
    unmarshalNewsItem pt (Json.obj [("updated", Json.num 5)]) =
      Except.error "updated" ∧
    decodeNewsResponse pt
        [Json.obj [("id", Json.num 7)], Json.obj [("updated", Json.num 5)]] =
      Except.error "updated" := by
  refine ⟨rfl, fun n => rfl, ?_, ?_, ?_, ?_, ?_, rfl, rfl⟩
  · intro w v h
    simp [decodeID, h]
  · intro w h
    simp [decodeID, h]
  · intro t hs h
    have he : s.isEmpty = false := by
      simp [List.isEmpty_iff, hs]
    simp [decodeUpdated, he, goTimeFormats, parseUpdatedLoop, h]
  · intro f rest t
    rcases h : pt f s with _ | u <;> simp [parseUpdatedLoop, h]
  · intro hall
    have h1 := hall "2006-01-02T15:04:05Z07:00" (by simp [goTimeFormats])
    have h2 := hall "2006-01-02T15:04:05Z" (by simp [goTimeFormats])
    have h3 := hall "2006-01-02 15:04:05" (by simp [goTimeFormats])
    have h4 := hall "2006-01-02T15:04:05" (by simp [goTimeFormats])
    rcases he : s.isEmpty with _ | _
    · simp [decodeUpdated, he, goTimeFormats, parseUpdatedLoop, h1, h2, h3, h4]
    · simp [decodeUpdated, he]

/-- Witness for C9: the numeric string "42" is coerced to 42, and a
timestamp no layout parses leaves the zero time. -/
theorem flexible_decode_witness :
    decodeID (some (Json.str "42".toList)) = 42 ∧
    decodeUpdated (fun _ _ => none) "2024-01-01".toList = 0 :=
  ⟨(flexible_decode (fun _ _ => none) Json.null [] []).2.2.1 "42".toList 42
      (by decide),
   (flexible_decode (fun _ _ => none) Json.null "2024-01-01".toList
      []).2.2.2.2.2.2.1 (fun f _ => rfl)⟩
